import Mathlib

/-!
Verification of the debug-information correlation engine of `learn-kvm`.

This development is a shallow embedding, in Lean 4, of the Python modules
`scripts/helper/leb128.py`, `scripts/helper/wasm_parser.py`,
`scripts/helper/lib_dwarf.py`, `scripts/helper/dwarf.py` and
`wasm-compiler/scripts/helper/wat_parser.py`.

Conventions of the embedding:
* Python `bytes` become `List Nat` (each element a byte value).
* Python exceptions become `Except PyErr`; an `assert` that fails is
  `PyErr.assertionError`, indexing past a sequence end is
  `PyErr.indexError`, a missing dictionary key `k` is `PyErr.keyError k`.
* Python dictionaries become association lists that keep insertion order
  (as CPython dictionaries do).
* The wasmtime guest instance of `lib_dwarf.py` is an abstract
  environment: each exported guest function is an arbitrary function of
  the guest linear memory which either returns a value (with a new
  memory) or traps.  Host-side calls and memory writes are recorded in
  an event trace so that resource-release behaviour is observable.
-/

set_option maxHeartbeats 1000000

namespace Kvm

/-- Python exception values that the embedded code can raise. -/
inductive PyErr where
  | assertionError : PyErr
  | indexError : PyErr
  | keyError : Nat → PyErr
  | unicodeDecodeError : PyErr
  | jsonDecodeError : PyErr
  | trap : PyErr
  deriving DecidableEq, Repr

deriving instance DecidableEq for Except

/-! ## leb128.py -/

/-- `leb128.MAX_LENGTH` from `scripts/helper/leb128.py`. -/
def MAX_LENGTH : Nat := 10

/-- Loop body of `u.decode` from `scripts/helper/leb128.py`: `i` is the
number of bytes already consumed, `r` the accumulator.  Mirrors
`for i, e in enumerate(b): r = r + ((e & 0x7F) << (i * 7)); if e & 0x80 == 0: break`
and the final `return r, i + 1` (when the loop runs out of bytes without
breaking, Python returns `r, len(b)`). -/
def u.decodeGo : List Nat → Nat → Nat → Nat × Nat
  | [], i, r => (r, i)
  | e :: rest, i, r =>
    let r' := r + ((e &&& 0x7F) <<< (i * 7))
    if e &&& 0x80 = 0 then (r', i + 1) else u.decodeGo rest (i + 1) r'

/-- `u.decode` from `scripts/helper/leb128.py`.  On an empty input the
Python `assert i is not None` fails, which we model as `none`. -/
def u.decode : List Nat → Option (Nat × Nat)
  | [] => none
  | e :: rest => some (u.decodeGo (e :: rest) 0 0)

/-- The value accumulated from all the 7-bit groups of a byte sequence,
least-significant group first (base-128 positional value of `e &&& 0x7F`). -/
def lebValue : List Nat → Nat
  | [] => 0
  | e :: rest => (e &&& 0x7F) + 128 * lebValue rest

theorem u.decodeGo_all_continuation (b : List Nat) :
    (∀ e ∈ b, e &&& 0x80 ≠ 0) → ∀ i r,
      u.decodeGo b i r = (r + lebValue b * 2 ^ (7 * i), i + b.length) := by
  induction b with
  | nil => intro _ i r; simp [u.decodeGo, lebValue]
  | cons e rest ih =>
    intro h i r
    have he : e &&& 0x80 ≠ 0 := h e (List.mem_cons_self e rest)
    have hrest : ∀ x ∈ rest, x &&& 0x80 ≠ 0 := fun x hx => h x (List.mem_cons_of_mem e hx)
    simp only [u.decodeGo, if_neg he]
    rw [ih hrest (i + 1)]
    rw [Prod.mk.injEq]
    refine ⟨?_, ?_⟩
    · rw [Nat.shiftLeft_eq, lebValue]
      have h7 : 7 * (i + 1) = 7 * i + 7 := by ring
      rw [h7, pow_add]
      have h128 : (2 : Nat) ^ 7 = 128 := by norm_num
      rw [h128, mul_comm i 7]
      ring
    · simp [List.length_cons]; omega

theorem u.decode_all_continuation (b : List Nat) (hne : b ≠ [])
    (h : ∀ e ∈ b, e &&& 0x80 ≠ 0) :
    u.decode b = some (lebValue b, b.length) := by
  cases b with
  | nil => exact absurd rfl hne
  | cons e rest =>
    rw [u.decode, u.decodeGo_all_continuation (e :: rest) h 0 0]
    simp

theorem u.decode_nil : u.decode [] = none := rfl

theorem u.decode_isSome_of_ne_nil (b : List Nat) (hne : b ≠ []) :
    ∃ p, u.decode b = some p := by
  cases b with
  | nil => exact absurd rfl hne
  | cons e rest => exact ⟨_, rfl⟩

/-- C10: for every non-empty byte sequence in which every byte has the
continuation bit `0x80` set (a truncated, unterminated LEB128 encoding),
the unsigned decoder `u.decode` returns, without error, the pair
(value accumulated from all the sequence's 7-bit groups, length of the
sequence): it performs no validation that the encoding terminates, and it
fails only on empty input. -/
theorem c10_udecode_truncated (b : List Nat) :
    (u.decode b = none ↔ b = []) ∧
      (b ≠ [] → (∀ e ∈ b, e &&& 0x80 ≠ 0) →
        u.decode b = some (lebValue b, b.length)) := by
  constructor
  · constructor
    · intro hnone
      by_contra hne
      obtain ⟨p, hp⟩ := u.decode_isSome_of_ne_nil b hne
      rw [hp] at hnone
      exact Option.noConfusion hnone
    · intro h; subst h; rfl
  · intro hne h
    exact u.decode_all_continuation b hne h

/-- Witness for C10 at the concrete truncated sequence `[0xFF, 0x81]`
(both bytes carry the continuation bit). -/
theorem c10_udecode_truncated_witness :
    ([0xFF, 0x81] : List Nat) ≠ [] ∧ (∀ e ∈ ([0xFF, 0x81] : List Nat), e &&& 0x80 ≠ 0) ∧
      u.decode [0xFF, 0x81] = some (255, 2) := by
  refine ⟨by decide, by decide, ?_⟩
  have h := (c10_udecode_truncated [0xFF, 0x81]).2 (by decide) (by decide)
  rw [h]
  decide

/-! ## wat_parser.py: offset_to_position -/

/-- Loop of `offset_to_position` from
`wasm-compiler/scripts/helper/wat_parser.py`: `line_number` counts the
lines already consumed, `cursor` the characters consumed so far
(each line counted as its length plus one for the `"\n"` terminator,
cf. the source comment `patch the newline again`).  When the loop runs
out of lines Python returns `(len(lines), 0)`. -/
def offset_to_position_go : List String → Nat → Nat → Nat → Nat × Nat
  | [], line_number, _cursor, _offset => (line_number, 0)
  | l :: rest, line_number, cursor, offset =>
    let old_cursor := cursor
    let cursor' := cursor + l.length + 1
    if offset ≥ old_cursor ∧ offset < cursor' then (line_number, offset - old_cursor)
    else offset_to_position_go rest (line_number + 1) cursor' offset

/-- `offset_to_position` from `wasm-compiler/scripts/helper/wat_parser.py`.
The caller (`explorer_server.analyze_wat`) passes `lines = wat.split("\n")`,
so a non-negative `offset` is modelled as `Nat`. -/
def offset_to_position (lines : List String) (offset : Nat) : Nat × Nat :=
  offset_to_position_go lines 0 0 offset

/-- Reconstruction of a flat character offset from the `(line, column)`
pair returned by `offset_to_position`: the sum of length-plus-one-terminator
over all lines before `line`, plus `column`. -/
def reconstructOffset (lines : List String) (p : Nat × Nat) : Nat :=
  ((lines.take p.1).map (fun l => l.length + 1)).sum + p.2

/-- Length of the text whose `split("\n")` decomposition is `lines`:
the line lengths plus one separator between consecutive lines. -/
def textLength (lines : List String) : Nat :=
  (lines.map String.length).sum + (lines.length - 1)

theorem offset_to_position_go_shift (lines : List String) :
    ∀ ln c off d,
      offset_to_position_go lines ln (c + d) (off + d) =
        offset_to_position_go lines ln c off := by
  induction lines with
  | nil => intro ln c off d; rfl
  | cons l rest ih =>
    intro ln c off d
    simp only [offset_to_position_go]
    by_cases hc : off ≥ c ∧ off < c + l.length + 1
    · rw [if_pos (by omega : off + d ≥ c + d ∧ off + d < c + d + l.length + 1), if_pos hc]
      rw [Prod.mk.injEq]
      exact ⟨rfl, by omega⟩
    · rw [if_neg (by omega : ¬(off + d ≥ c + d ∧ off + d < c + d + l.length + 1)), if_neg hc]
      have harr : c + d + l.length + 1 = (c + l.length + 1) + d := by ring
      rw [harr, ih]

theorem offset_to_position_go_succ (lines : List String) :
    ∀ ln c off,
      offset_to_position_go lines (ln + 1) c off =
        ((offset_to_position_go lines ln c off).1 + 1,
          (offset_to_position_go lines ln c off).2) := by
  induction lines with
  | nil => intro ln c off; rfl
  | cons l rest ih =>
    intro ln c off
    simp only [offset_to_position_go]
    by_cases hc : off ≥ c ∧ off < c + l.length + 1
    · rw [if_pos hc, if_pos hc]
    · rw [if_neg hc, if_neg hc, ih]

theorem offset_to_position_roundtrip_aux :
    ∀ (lines : List String) (offset : Nat),
      offset < ((lines.map (fun l => l.length + 1)).sum) →
      reconstructOffset lines (offset_to_position lines offset) = offset := by
  intro lines
  induction lines with
  | nil => intro offset h; simp at h
  | cons l rest ih =>
    intro offset h
    rw [offset_to_position, offset_to_position_go]
    by_cases hc : offset ≥ 0 ∧ offset < 0 + l.length + 1
    · rw [if_pos hc]
      simp [reconstructOffset]
    · rw [if_neg hc]
      have hge : offset ≥ l.length + 1 := by omega
      have hoff : offset = (offset - (l.length + 1)) + (l.length + 1) := by omega
      have hcur : (0 : Nat) + l.length + 1 = 0 + (l.length + 1) := by ring
      rw [hcur, hoff, offset_to_position_go_shift rest 1 0 (offset - (l.length + 1)),
        offset_to_position_go_succ rest 0 0 (offset - (l.length + 1))]
      have hlt : offset - (l.length + 1) < ((rest.map (fun l => l.length + 1)).sum) := by
        simp only [List.map_cons, List.sum_cons] at h
        omega
      have := ih (offset - (l.length + 1)) hlt
      rw [offset_to_position] at this
      simp only [reconstructOffset, List.take_succ_cons, List.map_cons, List.sum_cons]
      rw [reconstructOffset] at this
      omega

theorem sum_map_length_add_one (lines : List String) :
    ((lines.map (fun l => l.length + 1)).sum) =
      (lines.map String.length).sum + lines.length := by
  induction lines with
  | nil => simp
  | cons l rest ih => simp [ih]; omega

/-- C7: for every text (given to the scanner as its list of lines) and
every offset strictly inside the text, `offset_to_position` followed by
reconstructing the offset from the returned `(line, column)` — summing
length-plus-one-terminator over all lines before `line` and adding
`column` — recovers the original offset. -/
theorem c7_offset_to_position_roundtrip (lines : List String) (offset : Nat)
    (h : offset < textLength lines) :
    reconstructOffset lines (offset_to_position lines offset) = offset := by
  apply offset_to_position_roundtrip_aux
  rw [sum_map_length_add_one]
  rw [textLength] at h
  omega

/-- Witness for C7 on the two-line text `"ab\nc"` at offset 3 (the
character `c`): the position is `(1, 0)` and reconstruction gives 3 back. -/
theorem c7_offset_to_position_roundtrip_witness :
    3 < textLength ["ab", "c"] ∧
      reconstructOffset ["ab", "c"] (offset_to_position ["ab", "c"] 3) = 3 :=
  ⟨by decide, c7_offset_to_position_roundtrip ["ab", "c"] 3 (by decide)⟩

theorem offset_to_position_go_beyond (lines : List String) :
    ∀ ln c off, c + ((lines.map (fun l => l.length + 1)).sum) ≤ off →
      offset_to_position_go lines ln c off = (ln + lines.length, 0) := by
  induction lines with
  | nil => intro ln c off _; simp [offset_to_position_go]
  | cons l rest ih =>
    intro ln c off h
    simp only [List.map_cons, List.sum_cons] at h
    rw [offset_to_position_go, if_neg (by omega : ¬(off ≥ c ∧ off < c + l.length + 1))]
    rw [ih (ln + 1) (c + l.length + 1) off (by omega)]
    rw [Prod.mk.injEq]
    exact ⟨by simp [List.length_cons]; omega, rfl⟩

/-- C8: for every text and every offset beyond the end of the text,
`offset_to_position` returns `(numberOfLines, 0)` rather than failing.
The scanner attributes to each line the half-open span
`[start, start + length + 1)` covering the line and its terminator
(the source re-adds the `"\n"` consumed by `split`, cf. the comment
`patch the newline again`), so an offset is beyond the end of the text
exactly when it lies past every such span, i.e. when the total
terminator-inclusive length is at most `offset`. -/
theorem c8_offset_to_position_beyond_end (lines : List String) (offset : Nat)
    (h : ((lines.map (fun l => l.length + 1)).sum) ≤ offset) :
    offset_to_position lines offset = (lines.length, 0) := by
  rw [offset_to_position, offset_to_position_go_beyond lines 0 0 offset (by omega)]
  simp

/-- Witness for C8 on the two-line text `"ab\nc"` at offset 5 (one past
the final line's terminator span): the result is `(2, 0)`. -/
theorem c8_offset_to_position_beyond_end_witness :
    ((["ab", "c"].map (fun l => l.length + 1)).sum) ≤ 5 ∧
      offset_to_position ["ab", "c"] 5 = (2, 0) :=
  ⟨by decide, c8_offset_to_position_beyond_end ["ab", "c"] 5 (by decide)⟩

/-! ## wat_parser.py: Range, split_sub_expr, extract_func -/

/-- `Range` from `wasm-compiler/scripts/helper/wat_parser.py`: an
inclusive `[start, end]` character range.  The Python attribute `end` is
renamed `stop` here because `end` is a Lean keyword. -/
structure Range where
  start : Nat
  stop : Nat
  deriving DecidableEq, Repr

/-- Loop of `split_sub_expr` from
`wasm-compiler/scripts/helper/wat_parser.py`.  The first `Nat` argument
is the number of remaining iterations of `for i in range(r.start, r.end + 1)`,
`i` the current index; `depth` starts at `-1` and `current_start` at
`None`.  Reading `wat[i]` past the end of the string is an `IndexError`;
the `assert current_start is not None` is an `AssertionError`. -/
def split_sub_expr_go (wat : List Char) :
    Nat → Nat → Int → Option Nat → List Range → Except PyErr (List Range)
  | 0, _i, _depth, _current_start, subs => .ok subs
  | n + 1, i, depth, current_start, subs =>
    match wat[i]? with
    | none => .error .indexError
    | some c =>
      if c = '(' then
        let depth' := depth + 1
        if depth' = 1 then split_sub_expr_go wat n (i + 1) depth' (some i) subs
        else split_sub_expr_go wat n (i + 1) depth' current_start subs
      else if c = ')' then
        let depth' := depth - 1
        if depth' = 0 then
          match current_start with
          | none => .error .assertionError
          | some cs => split_sub_expr_go wat n (i + 1) depth' none (subs ++ [⟨cs, i⟩])
        else split_sub_expr_go wat n (i + 1) depth' current_start subs
      else split_sub_expr_go wat n (i + 1) depth current_start subs

/-- `split_sub_expr` from `wasm-compiler/scripts/helper/wat_parser.py`. -/
def split_sub_expr (wat : List Char) (r : Range) : Except PyErr (List Range) :=
  split_sub_expr_go wat (r.stop + 1 - r.start) r.start (-1) none []

/-- Python `str.strip()`: drop whitespace from both ends. -/
def pyStrip (s : List Char) : List Char :=
  ((s.dropWhile Char.isWhitespace).reverse.dropWhile Char.isWhitespace).reverse

/-- `get_sub_expr` from `wasm-compiler/scripts/helper/wat_parser.py`:
`wat[r.start + 1 : r.end].strip()`. -/
def get_sub_expr (wat : List Char) (r : Range) : List Char :=
  pyStrip ((wat.drop (r.start + 1)).take (r.stop - (r.start + 1)))

/-- `extract_func_impl` from
`wasm-compiler/scripts/helper/wat_parser.py`: asserts the text is
non-empty, splits into top-level sub-expressions and keeps those whose
stripped text starts with `"func"`. -/
def extract_func_impl (wat : List Char) (extract_range : Range) :
    Except PyErr (List Range) :=
  if wat.length = 0 then .error .assertionError
  else
    match split_sub_expr wat extract_range with
    | .error e => .error e
    | .ok sub_ranges =>
      .ok (sub_ranges.filter (fun sr => (get_sub_expr wat sr).take 4 = "func".toList))

/-- `extract_func` from `wasm-compiler/scripts/helper/wat_parser.py`. -/
def extract_func (wat : List Char) : Except PyErr (List Range) :=
  extract_func_impl wat ⟨0, wat.length - 1⟩

/-- Balance of parentheses, the spec-side notion used to state C6: every
prefix has at least as many `(` as `)`, and the counts agree at the end. -/
def balancedParensGo : List Char → Int → Bool
  | [], d => d == 0
  | c :: rest, d =>
    if c = '(' then balancedParensGo rest (d + 1)
    else if c = ')' then (if d ≤ 0 then false else balancedParensGo rest (d - 1))
    else balancedParensGo rest d

/-- A source text has balanced parentheses when the scan succeeds. -/
def balancedParens (wat : List Char) : Bool := balancedParensGo wat 0

theorem split_sub_expr_go_ok (wat : List Char) :
    ∀ (n i : Nat) (depth : Int) (current_start : Option Nat) (subs : List Range),
      i + n ≤ wat.length →
      (1 ≤ depth → current_start ≠ none) →
      ∃ out, split_sub_expr_go wat n i depth current_start subs = .ok out := by
  intro n
  induction n with
  | zero => intro i depth current_start subs _ _; exact ⟨subs, rfl⟩
  | succ n ih =>
    intro i depth current_start subs hlen hinv
    have hi : i < wat.length := by omega
    rw [split_sub_expr_go, List.getElem?_eq_getElem hi]
    dsimp only
    by_cases hopen : wat[i] = '('
    · rw [if_pos hopen]
      by_cases hone : depth + 1 = 1
      · rw [if_pos hone]
        exact ih (i + 1) (depth + 1) (some i) subs (by omega) (fun _ => by simp)
      · rw [if_neg hone]
        refine ih (i + 1) (depth + 1) current_start subs (by omega) (fun hd => ?_)
        exact hinv (by omega)
    · rw [if_neg hopen]
      by_cases hclose : wat[i] = ')'
      · rw [if_pos hclose]
        by_cases hzero : depth - 1 = 0
        · rw [if_pos hzero]
          have hcs : current_start ≠ none := hinv (by omega)
          cases current_start with
          | none => exact absurd rfl hcs
          | some cs =>
            exact ih (i + 1) (depth - 1) none (subs ++ [⟨cs, i⟩]) (by omega)
              (fun hd => absurd hzero (by omega))
        · rw [if_neg hzero]
          refine ih (i + 1) (depth - 1) current_start subs (by omega) (fun hd => ?_)
          exact hinv (by omega)
      · rw [if_neg hclose]
        exact ih (i + 1) depth current_start subs (by omega) hinv

/-- C6 counterexample: the text `"((func a)"` has unbalanced parentheses,
yet `extract_func` does not fail — it returns the (partial) list of the
completed depth-1 ranges, here the single range `[1, 8]`.  This refutes
the claim that unbalanced input fails with an `UnbalancedParentheses`
error rather than returning a possibly partial list of ranges. -/
theorem c6_counterexample :
    balancedParens ("((func a)".toList) = false ∧
      extract_func ("((func a)".toList) = .ok [⟨1, 8⟩] := by
  constructor
  · decide
  · decide

/-- C6 amended: the extraction performs no parenthesis-balance
validation at all.  For every non-empty source text — balanced or not —
`extract_func` returns a list of ranges without any error (only the
empty text fails, through the `assert len(wat) != 0` assertion); there
is no `UnbalancedParentheses` error path in the code. -/
theorem c6_amended_no_balance_check (wat : List Char) (hne : wat ≠ []) :
    ∃ rs, extract_func wat = .ok rs := by
  rw [extract_func, extract_func_impl]
  have hlen : wat.length ≠ 0 := fun h => hne (List.eq_nil_of_length_eq_zero h)
  rw [if_neg hlen]
  have hok := split_sub_expr_go_ok wat ((wat.length - 1) + 1 - 0) 0 (-1) none []
    (by omega) (fun h => absurd h (by omega))
  obtain ⟨out, hout⟩ := hok
  rw [split_sub_expr]
  rw [hout]
  exact ⟨_, rfl⟩

/-- Witness for the amended C6 at the concrete unbalanced text
`"((func a)"`. -/
theorem c6_amended_no_balance_check_witness :
    ("((func a)".toList ≠ []) ∧ ∃ rs, extract_func ("((func a)".toList) = .ok rs :=
  ⟨by decide, c6_amended_no_balance_check ("((func a)".toList) (by decide)⟩

/-! ## wasm_parser.py: opcode names -/

/-- Python `hex(op)`: lowercase hexadecimal with a `"0x"` prefix. -/
def pyHex (n : Nat) : String :=
  "0x" ++ String.mk (Nat.toDigits 16 n)

/-- `wasm_opcode_to_str` from `scripts/helper/wasm_parser.py`: the full
opcode-to-mnemonic table, with the deterministic
`unknown_opcode_<hex>` fallback. -/
def wasm_opcode_to_str (op : Nat) : String :=
  match op with
  | 0x00 => "unreachable"
  | 0x01 => "nop"
  | 0x02 => "block"
  | 0x03 => "loop"
  | 0x04 => "if"
  | 0x05 => "else"
  | 0x0B => "end"
  | 0x0C => "br"
  | 0x0D => "br_if"
  | 0x0E => "br_table"
  | 0x0F => "return"
  | 0x10 => "call"
  | 0x11 => "call_indirect"
  | 0x1A => "drop"
  | 0x1B => "select"
  | 0x20 => "local.get"
  | 0x21 => "local.set"
  | 0x22 => "local.tee"
  | 0x23 => "global.get"
  | 0x24 => "global.set"
  | 0x25 => "table.get"
  | 0x26 => "table.set"
  | 0x28 => "i32.load"
  | 0x29 => "i64.load"
  | 0x2A => "f32.load"
  | 0x2B => "f64.load"
  | 0x2C => "i32.load8_s"
  | 0x2D => "i32.load8_u"
  | 0x2E => "i32.load16_s"
  | 0x2F => "i32.load16_u"
  | 0x30 => "i64.load8_s"
  | 0x31 => "i64.load8_u"
  | 0x32 => "i64.load16_s"
  | 0x33 => "i64.load16_u"
  | 0x34 => "i64.load32_s"
  | 0x35 => "i64.load32_u"
  | 0x36 => "i32.store"
  | 0x37 => "i64.store"
  | 0x38 => "f32.store"
  | 0x39 => "f64.store"
  | 0x3A => "i32.store8"
  | 0x3B => "i32.store16"
  | 0x3C => "i64.store8"
  | 0x3D => "i64.store16"
  | 0x3E => "i64.store32"
  | 0x3F => "memory.size"
  | 0x40 => "memory.grow"
  | 0x41 => "i32.const"
  | 0x42 => "i64.const"
  | 0x43 => "f32.const"
  | 0x44 => "f64.const"
  | 0x45 => "i32.eqz"
  | 0x46 => "i32.eq"
  | 0x47 => "i32.ne"
  | 0x48 => "i32.lt_s"
  | 0x49 => "i32.lt_u"
  | 0x4A => "i32.gt_s"
  | 0x4B => "i32.gt_u"
  | 0x4C => "i32.le_s"
  | 0x4D => "i32.le_u"
  | 0x4E => "i32.ge_s"
  | 0x4F => "i32.ge_u"
  | 0x50 => "i64.eqz"
  | 0x51 => "i64.eq"
  | 0x52 => "i64.ne"
  | 0x53 => "i64.lt_s"
  | 0x54 => "i64.lt_u"
  | 0x55 => "i64.gt_s"
  | 0x56 => "i64.gt_u"
  | 0x57 => "i64.le_s"
  | 0x58 => "i64.le_u"
  | 0x59 => "i64.ge_s"
  | 0x5A => "i64.ge_u"
  | 0x5B => "f32.eq"
  | 0x5C => "f32.ne"
  | 0x5D => "f32.lt"
  | 0x5E => "f32.gt"
  | 0x5F => "f32.le"
  | 0x60 => "f32.ge"
  | 0x61 => "f64.eq"
  | 0x62 => "f64.ne"
  | 0x63 => "f64.lt"
  | 0x64 => "f64.gt"
  | 0x65 => "f64.le"
  | 0x66 => "f64.ge"
  | 0x67 => "i32.clz"
  | 0x68 => "i32.ctz"
  | 0x69 => "i32.popcnt"
  | 0x6A => "i32.add"
  | 0x6B => "i32.sub"
  | 0x6C => "i32.mul"
  | 0x6D => "i32.div_s"
  | 0x6E => "i32.div_u"
  | 0x6F => "i32.rem_s"
  | 0x70 => "i32.rem_u"
  | 0x71 => "i32.and"
  | 0x72 => "i32.or"
  | 0x73 => "i32.xor"
  | 0x74 => "i32.shl"
  | 0x75 => "i32.shr_s"
  | 0x76 => "i32.shr_u"
  | 0x77 => "i32.rotl"
  | 0x78 => "i32.rotr"
  | 0x79 => "i64.clz"
  | 0x7A => "i64.ctz"
  | 0x7B => "i64.popcnt"
  | 0x7C => "i64.add"
  | 0x7D => "i64.sub"
  | 0x7E => "i64.mul"
  | 0x7F => "i64.div_s"
  | 0x80 => "i64.div_u"
  | 0x81 => "i64.rem_s"
  | 0x82 => "i64.rem_u"
  | 0x83 => "i64.and"
  | 0x84 => "i64.or"
  | 0x85 => "i64.xor"
  | 0x86 => "i64.shl"
  | 0x87 => "i64.shr_s"
  | 0x88 => "i64.shr_u"
  | 0x89 => "i64.rotl"
  | 0x8A => "i64.rotr"
  | 0x8B => "f32.abs"
  | 0x8C => "f32.neg"
  | 0x8D => "f32.ceil"
  | 0x8E => "f32.floor"
  | 0x8F => "f32.trunc"
  | 0x90 => "f32.nearest"
  | 0x91 => "f32.sqrt"
  | 0x92 => "f32.add"
  | 0x93 => "f32.sub"
  | 0x94 => "f32.mul"
  | 0x95 => "f32.div"
  | 0x96 => "f32.min"
  | 0x97 => "f32.max"
  | 0x98 => "f32.copysign"
  | 0x99 => "f64.abs"
  | 0x9A => "f64.neg"
  | 0x9B => "f64.ceil"
  | 0x9C => "f64.floor"
  | 0x9D => "f64.trunc"
  | 0x9E => "f64.nearest"
  | 0x9F => "f64.sqrt"
  | 0xA0 => "f64.add"
  | 0xA1 => "f64.sub"
  | 0xA2 => "f64.mul"
  | 0xA3 => "f64.div"
  | 0xA4 => "f64.min"
  | 0xA5 => "f64.max"
  | 0xA6 => "f64.copysign"
  | 0xA7 => "i32.wrap_i64"
  | 0xA8 => "i32.trunc_f32_s"
  | 0xA9 => "i32.trunc_f32_u"
  | 0xAA => "i32.trunc_f64_s"
  | 0xAB => "i32.trunc_f64_u"
  | 0xAC => "i64.extend_i32_s"
  | 0xAD => "i64.extend_i32_u"
  | 0xAE => "i64.trunc_f32_s"
  | 0xAF => "i64.trunc_f32_u"
  | 0xB0 => "i64.trunc_f64_s"
  | 0xB1 => "i64.trunc_f64_u"
  | 0xB2 => "f32.convert_i32_s"
  | 0xB3 => "f32.convert_i32_u"
  | 0xB4 => "f32.convert_i64_s"
  | 0xB5 => "f32.convert_i64_u"
  | 0xB6 => "f32.demote_f64"
  | 0xB7 => "f64.convert_i32_s"
  | 0xB8 => "f64.convert_i32_u"
  | 0xB9 => "f64.convert_i64_s"
  | 0xBA => "f64.convert_i64_u"
  | 0xBB => "f64.promote_f32"
  | 0xBC => "i32.reinterpret_f32"
  | 0xBD => "i64.reinterpret_f64"
  | 0xBE => "f32.reinterpret_i32"
  | 0xBF => "f64.reinterpret_i64"
  | 0xC0 => "i32.extend8_s"
  | 0xC1 => "i32.extend16_s"
  | 0xC2 => "i64.extend8_s"
  | 0xC3 => "i64.extend16_s"
  | 0xC4 => "i64.extend32_s"
  | 0xD0 => "ref.null"
  | 0xD1 => "ref.is_null"
  | 0xD2 => "ref.func"
  | 0xFC08 => "memory.init"
  | 0xFC09 => "data.drop"
  | 0xFC0A => "memory.copy"
  | 0xFC0B => "memory.fill"
  | 0xFC0C => "table.init"
  | 0xFC0D => "element.drop"
  | 0xFC0E => "table.copy"
  | 0xFC0F => "table.grow"
  | 0xFC10 => "table.size"
  | 0xFC11 => "table.fill"
  | _ => "unknown_opcode_" ++ pyHex op

/-- Python `int.from_bytes(b, "big")`. -/
def int_from_bytes_big (b : List Nat) : Nat :=
  b.foldl (fun acc e => acc * 256 + e) 0

/-- `get_wasm_op_code_str` from `scripts/helper/wasm_parser.py`:
`wasm[offset]` raises `IndexError` when `offset` is out of range; a lead
byte `0xFC` makes the two bytes `wasm[offset : offset + 2]` a big-endian
key into the same table. -/
def get_wasm_op_code_str (wasm : List Nat) (offset : Nat) : Except PyErr String :=
  match wasm[offset]? with
  | none => .error .indexError
  | some b =>
    if b ≠ 0xFC then .ok (wasm_opcode_to_str b)
    else .ok (wasm_opcode_to_str (int_from_bytes_big ((wasm.drop offset).take 2)))

/-! ## dwarf.py: the stage-4 composition of analyze_debug_info_in_dwarf -/

/-- A diagnostic record emitted through `logging.info` during the
composition loop: a wasm offset absent from the stage-1 map, logged
together with the opcode name for context. -/
inductive LogRecord where
  | unresolvedWasmOffset (wasmOffset : Nat) (opcode : String) : LogRecord
  deriving DecidableEq, Repr

/-- CPython `defaultdict(list)` update `result[key].append(value)`:
appends to the existing entry, or adds a new key at the end (dictionaries
keep insertion order). -/
def addToKey : List (Nat × List Nat) → Nat → Nat → List (Nat × List Nat)
  | [], k, v => [(k, [v])]
  | (k', vs) :: rest, k, v =>
    if k' = k then (k', vs ++ [v]) :: rest else (k', vs) :: addToKey rest k v

/-- Innermost loop of `analyze_debug_info_in_dwarf`
(`scripts/helper/dwarf.py`): `for machine_code_offset in machine_code_offsets`.
The subscript `machine_code_offset_to_disassembly_line[machine_code_offset]`
raises `KeyError` when the offset is absent from the stage-3 map. -/
def correlate_machine_offsets (stage3 : List (Nat × Nat)) (wat_line : Nat) :
    List Nat → List (Nat × List Nat) → Except PyErr (List (Nat × List Nat))
  | [], acc => .ok acc
  | machine_code_offset :: rest, acc =>
    match List.lookup machine_code_offset stage3 with
    | none => .error (.keyError machine_code_offset)
    | some assembly_line =>
      correlate_machine_offsets stage3 wat_line rest (addToKey acc wat_line assembly_line)

/-- Middle loop of `analyze_debug_info_in_dwarf`: `for wasm_offset in
wasm_offsets`.  A wasm offset absent from the stage-1 map is logged
(with the opcode name from `get_wasm_op_code_str`) and skipped via
`continue`. -/
def correlate_wasm_offsets (stage1 : List (Nat × List Nat)) (stage3 : List (Nat × Nat))
    (wasm : List Nat) (wat_line : Nat) :
    List Nat → List (Nat × List Nat) → List LogRecord →
      Except PyErr (List (Nat × List Nat)) × List LogRecord
  | [], acc, logs => (.ok acc, logs)
  | wasm_offset :: rest, acc, logs =>
    match List.lookup wasm_offset stage1 with
    | none =>
      match get_wasm_op_code_str wasm wasm_offset with
      | .error e => (.error e, logs)
      | .ok opstr =>
        correlate_wasm_offsets stage1 stage3 wasm wat_line rest acc
          (logs ++ [.unresolvedWasmOffset wasm_offset opstr])
    | some machine_code_offsets =>
      match correlate_machine_offsets stage3 wat_line machine_code_offsets acc with
      | .error e => (.error e, logs)
      | .ok acc' => correlate_wasm_offsets stage1 stage3 wasm wat_line rest acc' logs

/-- Outer loop of `analyze_debug_info_in_dwarf`:
`for wat_line, wasm_offsets in wat_line_to_wasm_offset.items()`. -/
def correlate_wat_lines (stage1 : List (Nat × List Nat)) (stage3 : List (Nat × Nat))
    (wasm : List Nat) :
    List (Nat × List Nat) → List (Nat × List Nat) → List LogRecord →
      Except PyErr (List (Nat × List Nat)) × List LogRecord
  | [], acc, logs => (.ok acc, logs)
  | (wat_line, wasm_offsets) :: rest, acc, logs =>
    match correlate_wasm_offsets stage1 stage3 wasm wat_line wasm_offsets acc logs with
    | (.error e, logs') => (.error e, logs')
    | (.ok acc', logs') => correlate_wat_lines stage1 stage3 wasm rest acc' logs'

/-- The stage-4 composition of `analyze_debug_info_in_dwarf`
(`scripts/helper/dwarf.py`, the final loop): given the already-computed
stage maps — stage 1 `wasm_offset_to_machine_code_offset`, stage 2
`wat_line_to_wasm_offset` (addresses already absolute), stage 3
`machine_code_offset_to_disassembly_line` — and the wasm bytes (used
only to name the opcode when logging a stage-1 miss), produce
`wat_line → [assembly_line]` together with the diagnostics logged. -/
def analyze_composition (stage1 stage2 : List (Nat × List Nat))
    (stage3 : List (Nat × Nat)) (wasm : List Nat) :
    Except PyErr (List (Nat × List Nat)) × List LogRecord :=
  correlate_wat_lines stage1 stage3 wasm stage2 [] []

/-- C2: given the synthetic stage inputs — stage 2 `{3: [10]}` (the
`LineDebugRecord` set `{(addr=10, line=3)}` grouped by line, addresses
already absolute), stage 1 `MachineCodeMap` `{10: [0x1000]}`, stage 3
`AssemblyIndex` `{0x1000: 7}` — the four-stage composition yields
exactly `{3: [7]}` (and no diagnostics, no error). -/
theorem c2_composition_correctness :
    analyze_composition [(10, [0x1000])] [(3, [10])] [(0x1000, 7)] [] =
      (.ok [(3, [7])], []) := by
  decide

/-- C1 counterexample: with the stage inputs of the claim — stage 2
`{3: [10]}`, stage 1 `{10: [0x1000]}`, stage 3 empty — the composition
does NOT return the empty mapping with one `UnresolvedOffset`
diagnostic: it aborts with `KeyError(0x1000)` from the unguarded stage-3
subscript, and the diagnostics list is empty. -/
theorem c1_counterexample :
    (analyze_composition [(10, [0x1000])] [(3, [10])] [] []).1 =
        .error (.keyError 0x1000) ∧
      (analyze_composition [(10, [0x1000])] [(3, [10])] [] []).2 = [] ∧
      ¬(analyze_composition [(10, [0x1000])] [(3, [10])] [] []).1 = .ok [] := by
  refine ⟨by decide, by decide, by decide⟩

/-- C1 amended: only a wasm offset absent from the stage-1 map is logged
and skipped without aborting; a machine-code offset absent from the
stage-3 map raises an uncaught `KeyError` that aborts the whole
correlation.  Concretely: (a) on the claim's inputs (stage 3 empty) the
engine aborts with `KeyError(0x1000)` and records no diagnostic; (b) on
the dual situation (stage 1 empty, stage 3 `{0x1000: 7}`, wasm bytes
`nop`-filled so `wasm[10]` names the opcode `nop`) it returns `{}` and
records exactly one diagnostic naming wasm offset 10. -/
theorem c1_amended_gap_tolerance :
    analyze_composition [(10, [0x1000])] [(3, [10])] [] [] =
        (.error (.keyError 0x1000), []) ∧
      analyze_composition [] [(3, [10])] [(0x1000, 7)] (List.replicate 11 0x01) =
        (.ok [], [.unresolvedWasmOffset 10 "nop"]) := by
  refine ⟨by decide, by decide⟩

/-! ## lib_dwarf.py: the guest debug-decoder bridge

The wasmtime instance is abstracted: guest linear memory is a byte
function `Nat → Nat`, and every exported guest function is an arbitrary
function of the memory that either returns an integer result (with a
possibly mutated memory) or traps.  Host-side observable actions —
`call_func` invocations and host writes into linear memory — are
recorded in an event trace. -/

/-- Guest linear memory: a byte value for every address. -/
def GuestMem : Type := Nat → Nat

/-- Host-side observable events of the bridge. -/
inductive Event where
  | call (name : String) (args : List Nat) : Event
  | write (ptr : Nat) (data : List Nat) : Event
  deriving DecidableEq, Repr

/-- One entry `{ "line": int, "address": int }` of the line-map JSON
payload. -/
structure LineEntry where
  line : Nat
  address : Nat
  deriving DecidableEq, Repr

/-- The abstract guest environment: `callImpl` interprets each exported
function (it may trap, modelled as `Except.error`), and `jsonLoads`
interprets the Python `json.loads` builtin on the decoded payload (it
may raise, also modelled as `Except.error`). -/
structure BridgeEnv where
  callImpl : String → List Nat → GuestMem → Except Unit (Nat × GuestMem)
  jsonLoads : String → Except Unit (List LineEntry)

/-- `write_to_linear_memory` from `scripts/helper/lib_dwarf.py`: copy
`data` byte-by-byte into memory starting at `ptr`. -/
def writeMemAt (m : GuestMem) (ptr : Nat) (data : List Nat) : GuestMem :=
  fun i => if ptr ≤ i ∧ i < ptr + data.length then data.getD (i - ptr) 0 else m i

/-- `read_from_linear_memory` from `scripts/helper/lib_dwarf.py`: read
`size` bytes starting at `ptr`. -/
def read_from_linear_memory (ptr size : Nat) (m : GuestMem) : List Nat :=
  (List.range size).map (fun i => m (ptr + i))

/-- Python `int.from_bytes(b, "little")`. -/
def int_from_bytes_little (b : List Nat) : Nat :=
  b.foldr (fun e acc => acc * 256 + e) 0

/-- Strict UTF-8 validation and decoding, the model of Python
`bytes.decode("utf-8")`.  Arguments: remaining bytes, number of
continuation bytes still expected, accumulated code point, byte length
of the current sequence.  Overlong encodings, surrogates and values
above `0x10FFFF` are rejected by the final range check. -/
def utf8MinCp : Nat → Nat
  | 2 => 0x80
  | 3 => 0x800
  | 4 => 0x10000
  | _ => 0

def utf8Run : List Nat → Nat → Nat → Nat → Option (List Char)
  | [], need, _, _ => if need = 0 then some [] else none
  | b :: rest, 0, _, _ =>
    if b < 0x80 then (utf8Run rest 0 0 0).map (fun cs => Char.ofNat b :: cs)
    else if 0xC0 ≤ b ∧ b < 0xE0 then utf8Run rest 1 (b - 0xC0) 2
    else if 0xE0 ≤ b ∧ b < 0xF0 then utf8Run rest 2 (b - 0xE0) 3
    else if 0xF0 ≤ b ∧ b < 0xF8 then utf8Run rest 3 (b - 0xF0) 4
    else none
  | b :: rest, need + 1, cp, len =>
    if 0x80 ≤ b ∧ b < 0xC0 then
      let cp' := cp * 64 + (b - 0x80)
      if need = 0 then
        if utf8MinCp len ≤ cp' ∧ cp' < 0x110000 ∧ ¬(0xD800 ≤ cp' ∧ cp' < 0xE000) then
          (utf8Run rest 0 0 0).map (fun cs => Char.ofNat cp' :: cs)
        else none
      else utf8Run rest need cp' len
    else none

/-- Python `bytes.decode("utf-8")` on a byte list: `none` models the
`UnicodeDecodeError` raise. -/
def decodeUtf8 (bytes : List Nat) : Option String :=
  (utf8Run bytes 0 0 0).map (fun cs => String.mk cs)

/-- `DWO.__enter__` from `scripts/helper/lib_dwarf.py`: allocate
`len(bin)` guest bytes via `cabi_realloc`, copy the blob to the returned
pointer (no null-pointer check), and call `dwo-create` on it; the
resulting handle is returned.  A trap in either guest call propagates as
a Python exception. -/
def DWO.enter (bin : List Nat) (env : BridgeEnv) (m : GuestMem) :
    Except PyErr Nat × GuestMem × List Event :=
  match env.callImpl "cabi_realloc" [0, 0, 4, bin.length] m with
  | .error _ => (.error .trap, m, [.call "cabi_realloc" [0, 0, 4, bin.length]])
  | .ok (dwarf_ptr, m1) =>
    let m2 := writeMemAt m1 dwarf_ptr bin
    match env.callImpl "dwo-create" [dwarf_ptr, bin.length] m2 with
    | .error _ =>
      (.error .trap, m2,
        [.call "cabi_realloc" [0, 0, 4, bin.length], .write dwarf_ptr bin,
          .call "dwo-create" [dwarf_ptr, bin.length]])
    | .ok (dwo, m3) =>
      (.ok dwo, m3,
        [.call "cabi_realloc" [0, 0, 4, bin.length], .write dwarf_ptr bin,
          .call "dwo-create" [dwarf_ptr, bin.length]])

/-- `DWO.__exit__` from `scripts/helper/lib_dwarf.py`: call the guest
destructor `dwo-destroy` on the stored handle.  The call event is
recorded even when the guest call traps. -/
def DWO.exitRun (dwo : Nat) (env : BridgeEnv) (m : GuestMem) :
    Except PyErr Nat × GuestMem × List Event :=
  match env.callImpl "dwo-destroy" [dwo] m with
  | .error _ => (.error .trap, m, [.call "dwo-destroy" [dwo]])
  | .ok (r, m1) => (.ok r, m1, [.call "dwo-destroy" [dwo]])

/-- Body of the `with DWO(binary) as dwo:` block in
`get_wasm_wat_mapping` (`scripts/helper/lib_dwarf.py`): call
`dwo-get-line-map`, read the `{dataPointer, length}` struct, read and
UTF-8-decode the payload, then call the post-return export
`cabi_post_dwo-get-line-map`.  Note the UTF-8 decode happens BEFORE the
post-return call. -/
def getLineMapBody (dwo : Nat) (env : BridgeEnv) (m : GuestMem) :
    Except PyErr String × GuestMem × List Event :=
  match env.callImpl "dwo-get-line-map" [dwo] m with
  | .error _ => (.error .trap, m, [.call "dwo-get-line-map" [dwo]])
  | .ok (json_struct_ptr, m1) =>
    let json_ptr := int_from_bytes_little (read_from_linear_memory json_struct_ptr 4 m1)
    let json_length :=
      int_from_bytes_little (read_from_linear_memory (json_struct_ptr + 4) 4 m1)
    match decodeUtf8 (read_from_linear_memory json_ptr json_length m1) with
    | none => (.error .unicodeDecodeError, m1, [.call "dwo-get-line-map" [dwo]])
    | some debug_line =>
      match env.callImpl "cabi_post_dwo-get-line-map" [json_struct_ptr] m1 with
      | .error _ =>
        (.error .trap, m1,
          [.call "dwo-get-line-map" [dwo],
            .call "cabi_post_dwo-get-line-map" [json_struct_ptr]])
      | .ok (_, m2) =>
        (.ok debug_line, m2,
          [.call "dwo-get-line-map" [dwo],
            .call "cabi_post_dwo-get-line-map" [json_struct_ptr]])

/-- `get_wasm_wat_mapping` from `scripts/helper/lib_dwarf.py`: the
Python `with` statement around the body.  `__exit__` runs on both the
normal and the exceptional exit of the body (but not when `__enter__`
itself raised); `__exit__` returns `None`, so a body exception
propagates, and an exception inside `__exit__` replaces the in-flight
one. -/
def get_wasm_wat_mapping (binary : List Nat) (env : BridgeEnv) (m : GuestMem) :
    Except PyErr String × GuestMem × List Event :=
  match DWO.enter binary env m with
  | (.error e, m1, tr1) => (.error e, m1, tr1)
  | (.ok dwo, m1, tr1) =>
    match getLineMapBody dwo env m1 with
    | (.ok s, m2, tr2) =>
      match DWO.exitRun dwo env m2 with
      | (.ok _, m3, tr3) => (.ok s, m3, tr1 ++ tr2 ++ tr3)
      | (.error e, m3, tr3) => (.error e, m3, tr1 ++ tr2 ++ tr3)
    | (.error e, m2, tr2) =>
      match DWO.exitRun dwo env m2 with
      | (.ok _, m3, tr3) => (.error e, m3, tr1 ++ tr2 ++ tr3)
      | (.error e2, m3, tr3) => (.error e2, m3, tr1 ++ tr2 ++ tr3)

/-- `decode_dwarf` from `scripts/helper/dwarf.py`: run the bridge, parse
the JSON payload (`json.loads`, after the `with` block has closed), and
group the entries as `result[line].append(address)`. -/
def decode_dwarf (dwo : List Nat) (env : BridgeEnv) (m : GuestMem) :
    Except PyErr (List (Nat × List Nat)) × GuestMem × List Event :=
  match get_wasm_wat_mapping dwo env m with
  | (.error e, m1, tr1) => (.error e, m1, tr1)
  | (.ok debug_line, m1, tr1) =>
    match env.jsonLoads debug_line with
    | .error _ => (.error .jsonDecodeError, m1, tr1)
    | .ok entries =>
      (.ok (entries.foldl (fun acc e => addToKey acc e.line e.address) []), m1, tr1)

/-- The arguments of every `call_func` event with the given export name,
in trace order. -/
def callsNamed (name : String) (tr : List Event) : List (List Nat) :=
  tr.filterMap (fun e =>
    match e with
    | .call n args => if n = name then some args else none
    | .write _ _ => none)

theorem callsNamed_nil (name : String) : callsNamed name [] = [] := rfl

theorem callsNamed_cons_call (name n : String) (args : List Nat) (tr : List Event) :
    callsNamed name (Event.call n args :: tr) =
      if n = name then args :: callsNamed name tr else callsNamed name tr := by
  by_cases h : n = name
  · simp [callsNamed, h]
  · simp [callsNamed, h]

theorem callsNamed_cons_write (name : String) (ptr : Nat) (data : List Nat)
    (tr : List Event) :
    callsNamed name (Event.write ptr data :: tr) = callsNamed name tr := by
  simp [callsNamed]

theorem callsNamed_append (name : String) (a b : List Event) :
    callsNamed name (a ++ b) = callsNamed name a ++ callsNamed name b := by
  simp [callsNamed, List.filterMap_append]

theorem destroy_trace_enter (bin : List Nat) (env : BridgeEnv) (m : GuestMem) :
    callsNamed "dwo-destroy" (DWO.enter bin env m).2.2 = [] := by
  unfold DWO.enter
  dsimp only
  repeat' split
  all_goals simp [callsNamed_cons_call, callsNamed_cons_write, callsNamed_nil]

theorem destroy_trace_body (dwo : Nat) (env : BridgeEnv) (m : GuestMem) :
    callsNamed "dwo-destroy" (getLineMapBody dwo env m).2.2 = [] := by
  unfold getLineMapBody
  dsimp only
  repeat' split
  all_goals simp [callsNamed_cons_call, callsNamed_cons_write, callsNamed_nil]

theorem destroy_trace_exit (dwo : Nat) (env : BridgeEnv) (m : GuestMem) :
    callsNamed "dwo-destroy" (DWO.exitRun dwo env m).2.2 = [[dwo]] := by
  unfold DWO.exitRun
  repeat' split
  all_goals simp [callsNamed_cons_call, callsNamed_cons_write, callsNamed_nil]

/-- C3: for every guest behaviour, every debug blob and every exit path
of the scoped guest acquisition — normal return of the line-map string,
a trap while calling the guest or a UTF-8 decode failure inside the
scope, or a subsequent JSON-parse (`MalformedLineMap`) failure in
`decode_dwarf` — the guest destructor export `dwo-destroy` is invoked
exactly once, with the handle created by that invocation of the `DWO`
context manager (provided `__enter__` itself completed and produced the
handle). -/
theorem c3_destroy_called_once (env : BridgeEnv) (m : GuestMem) (bin : List Nat)
    (h : Nat) (henter : (DWO.enter bin env m).1 = .ok h) :
    callsNamed "dwo-destroy" (decode_dwarf bin env m).2.2 = [[h]] := by
  have hE : DWO.enter bin env m =
      ((DWO.enter bin env m).1, (DWO.enter bin env m).2.1, (DWO.enter bin env m).2.2) := rfl
  have h1 := destroy_trace_enter bin env m
  rw [decode_dwarf, get_wasm_wat_mapping, hE, henter]
  dsimp only
  have h2 := destroy_trace_body h env (DWO.enter bin env m).2.1
  have hB : getLineMapBody h env (DWO.enter bin env m).2.1 =
      ((getLineMapBody h env (DWO.enter bin env m).2.1).1,
        (getLineMapBody h env (DWO.enter bin env m).2.1).2.1,
        (getLineMapBody h env (DWO.enter bin env m).2.1).2.2) := rfl
  rw [hB]
  cases hrb : (getLineMapBody h env (DWO.enter bin env m).2.1).1 with
  | ok s =>
    dsimp only
    have h3 := destroy_trace_exit h env (getLineMapBody h env (DWO.enter bin env m).2.1).2.1
    have hX : DWO.exitRun h env (getLineMapBody h env (DWO.enter bin env m).2.1).2.1 =
        ((DWO.exitRun h env (getLineMapBody h env (DWO.enter bin env m).2.1).2.1).1,
          (DWO.exitRun h env (getLineMapBody h env (DWO.enter bin env m).2.1).2.1).2.1,
          (DWO.exitRun h env (getLineMapBody h env (DWO.enter bin env m).2.1).2.1).2.2) := rfl
    rw [hX]
    cases hrx : (DWO.exitRun h env (getLineMapBody h env (DWO.enter bin env m).2.1).2.1).1 with
    | ok v =>
      dsimp only
      cases hj : env.jsonLoads s with
      | ok entries => simp [callsNamed_append, h1, h2, h3]
      | error u => simp [callsNamed_append, h1, h2, h3]
    | error e =>
      dsimp only
      simp [callsNamed_append, h1, h2, h3]
  | error e =>
    dsimp only
    have h3 := destroy_trace_exit h env (getLineMapBody h env (DWO.enter bin env m).2.1).2.1
    have hX : DWO.exitRun h env (getLineMapBody h env (DWO.enter bin env m).2.1).2.1 =
        ((DWO.exitRun h env (getLineMapBody h env (DWO.enter bin env m).2.1).2.1).1,
          (DWO.exitRun h env (getLineMapBody h env (DWO.enter bin env m).2.1).2.1).2.1,
          (DWO.exitRun h env (getLineMapBody h env (DWO.enter bin env m).2.1).2.1).2.2) := rfl
    rw [hX]
    cases hrx : (DWO.exitRun h env (getLineMapBody h env (DWO.enter bin env m).2.1).2.1).1 with
    | ok v => simp [callsNamed_append, h1, h2, h3]
    | error e2 => simp [callsNamed_append, h1, h2, h3]

/-- A guest environment in which every export succeeds: `dwo-create`
returns handle 7, every other call returns 0; memory starts zeroed, so
the payload decodes as the empty string; `json.loads` succeeds. -/
def envOK : BridgeEnv where
  callImpl := fun name _ m => if name = "dwo-create" then .ok (7, m) else .ok (0, m)
  jsonLoads := fun _ => .ok []

/-- All-zero guest memory. -/
def memZero : GuestMem := fun _ => 0

/-- Witness for C3: under `envOK` the enter phase yields handle 7 and
the full `decode_dwarf` run calls `dwo-destroy` exactly once, on 7. -/
theorem c3_destroy_called_once_witness :
    (DWO.enter [1, 2] envOK memZero).1 = .ok 7 ∧
      callsNamed "dwo-destroy" (decode_dwarf [1, 2] envOK memZero).2.2 = [[7]] :=
  ⟨by decide, c3_destroy_called_once envOK memZero [1, 2] 7 (by decide)⟩

theorem enter_error_trap (bin : List Nat) (env : BridgeEnv) (m : GuestMem) (e : PyErr) :
    (DWO.enter bin env m).1 = .error e → e = .trap := by
  unfold DWO.enter
  try dsimp only
  repeat' split
  all_goals intro h
  all_goals simp_all

theorem body_error_kinds (dwo : Nat) (env : BridgeEnv) (m : GuestMem) (e : PyErr) :
    (getLineMapBody dwo env m).1 = .error e → e = .trap ∨ e = .unicodeDecodeError := by
  unfold getLineMapBody
  try dsimp only
  repeat' split
  all_goals intro h
  all_goals simp_all

theorem exit_error_trap (dwo : Nat) (env : BridgeEnv) (m : GuestMem) (e : PyErr) :
    (DWO.exitRun dwo env m).1 = .error e → e = .trap := by
  unfold DWO.exitRun
  repeat' split
  all_goals intro h
  all_goals simp_all

theorem post_trace_enter (bin : List Nat) (env : BridgeEnv) (m : GuestMem) :
    callsNamed "cabi_post_dwo-get-line-map" (DWO.enter bin env m).2.2 = [] := by
  unfold DWO.enter
  dsimp only
  repeat' split
  all_goals simp [callsNamed_cons_call, callsNamed_cons_write, callsNamed_nil]

theorem post_trace_exit (dwo : Nat) (env : BridgeEnv) (m : GuestMem) :
    callsNamed "cabi_post_dwo-get-line-map" (DWO.exitRun dwo env m).2.2 = [] := by
  unfold DWO.exitRun
  repeat' split
  all_goals simp [callsNamed_cons_call, callsNamed_cons_write, callsNamed_nil]

theorem post_trace_body_ok (dwo : Nat) (env : BridgeEnv) (m : GuestMem) (s : String) :
    (getLineMapBody dwo env m).1 = .ok s →
      (callsNamed "cabi_post_dwo-get-line-map" (getLineMapBody dwo env m).2.2).length = 1 := by
  unfold getLineMapBody
  try dsimp only
  repeat' split
  all_goals intro h
  all_goals simp_all [callsNamed_cons_call, callsNamed_cons_write, callsNamed_nil]

/-- C4 amended: the post-return export `cabi_post_dwo-get-line-map` is
called (exactly once, with the struct pointer) on every run of the
bridge that gets past UTF-8-decoding the retrieved bytes — in
particular, because the call happens before `json.loads`, it is called
even when JSON parsing of the payload subsequently fails.  When UTF-8
decoding of the retrieved bytes itself fails, the exception skips the
post-return call (see the counterexample). -/
theorem c4_amended_post_return_called (env : BridgeEnv) (m : GuestMem) (bin : List Nat)
    (r : List (Nat × List Nat))
    (h : (decode_dwarf bin env m).1 = .ok r ∨
      (decode_dwarf bin env m).1 = .error .jsonDecodeError) :
    (callsNamed "cabi_post_dwo-get-line-map" (decode_dwarf bin env m).2.2).length = 1 := by
  have hE : DWO.enter bin env m =
      ((DWO.enter bin env m).1, (DWO.enter bin env m).2.1, (DWO.enter bin env m).2.2) := rfl
  revert h
  rw [decode_dwarf, get_wasm_wat_mapping, hE]
  cases hE1 : (DWO.enter bin env m).1 with
  | error e =>
    dsimp only
    intro h
    have he : e = .trap := enter_error_trap bin env m e hE1
    subst he
    rcases h with h | h <;> simp at h
  | ok dwo =>
    dsimp only
    have hB : getLineMapBody dwo env (DWO.enter bin env m).2.1 =
        ((getLineMapBody dwo env (DWO.enter bin env m).2.1).1,
          (getLineMapBody dwo env (DWO.enter bin env m).2.1).2.1,
          (getLineMapBody dwo env (DWO.enter bin env m).2.1).2.2) := rfl
    rw [hB]
    cases hrb : (getLineMapBody dwo env (DWO.enter bin env m).2.1).1 with
    | ok s =>
      dsimp only
      have hX : DWO.exitRun dwo env (getLineMapBody dwo env (DWO.enter bin env m).2.1).2.1 =
          ((DWO.exitRun dwo env (getLineMapBody dwo env (DWO.enter bin env m).2.1).2.1).1,
            (DWO.exitRun dwo env (getLineMapBody dwo env (DWO.enter bin env m).2.1).2.1).2.1,
            (DWO.exitRun dwo env (getLineMapBody dwo env (DWO.enter bin env m).2.1).2.1).2.2) := rfl
      rw [hX]
      have hp1 := post_trace_enter bin env m
      have hp2 := post_trace_body_ok dwo env (DWO.enter bin env m).2.1 s hrb
      have hp3 := post_trace_exit dwo env (getLineMapBody dwo env (DWO.enter bin env m).2.1).2.1
      cases hrx : (DWO.exitRun dwo env (getLineMapBody dwo env (DWO.enter bin env m).2.1).2.1).1 with
      | ok v =>
        dsimp only
        cases hj : env.jsonLoads s with
        | ok entries =>
          intro _
          simp [callsNamed_append, hp1, hp3]
          exact hp2
        | error u =>
          intro _
          simp [callsNamed_append, hp1, hp3]
          exact hp2
      | error e2 =>
        dsimp only
        intro h
        have he2 : e2 = .trap := exit_error_trap dwo env _ e2 hrx
        subst he2
        rcases h with h | h <;> simp at h
    | error e =>
      dsimp only
      have hX : DWO.exitRun dwo env (getLineMapBody dwo env (DWO.enter bin env m).2.1).2.1 =
          ((DWO.exitRun dwo env (getLineMapBody dwo env (DWO.enter bin env m).2.1).2.1).1,
            (DWO.exitRun dwo env (getLineMapBody dwo env (DWO.enter bin env m).2.1).2.1).2.1,
            (DWO.exitRun dwo env (getLineMapBody dwo env (DWO.enter bin env m).2.1).2.1).2.2) := rfl
      rw [hX]
      cases hrx : (DWO.exitRun dwo env (getLineMapBody dwo env (DWO.enter bin env m).2.1).2.1).1 with
      | ok v =>
        dsimp only
        intro h
        have he : e = .trap ∨ e = .unicodeDecodeError := body_error_kinds dwo env _ e hrb
        rcases he with he | he <;> subst he <;> rcases h with h | h <;> simp at h
      | error e2 =>
        dsimp only
        intro h
        have he2 : e2 = .trap := exit_error_trap dwo env _ e2 hrx
        subst he2
        rcases h with h | h <;> simp at h

/-- A guest environment in which every export succeeds returning pointer
0 but `json.loads` raises: the payload read from zeroed memory decodes
as the empty string, which is not valid JSON. -/
def envJsonFail : BridgeEnv where
  callImpl := fun _ _ m => .ok (0, m)
  jsonLoads := fun _ => .error ()

/-- Witness for the amended C4: with `json.loads` failing, the run ends
in the `MalformedLineMap` (`jsonDecodeError`) failure and the
post-return export has still been called exactly once. -/
theorem c4_amended_post_return_called_witness :
    (decode_dwarf [] envJsonFail memZero).1 = .error .jsonDecodeError ∧
      (callsNamed "cabi_post_dwo-get-line-map" (decode_dwarf [] envJsonFail memZero).2.2).length = 1 :=
  ⟨by decide, c4_amended_post_return_called envJsonFail memZero [] [] (Or.inr (by decide))⟩

/-- A guest environment whose calls all succeed returning pointer 0, and
a memory in which the line-map struct at 0 points at one byte `0xFF`
(`dataPointer = 16`, `length = 1`) — invalid UTF-8. -/
def envStructZero : BridgeEnv where
  callImpl := fun _ _ m => .ok (0, m)
  jsonLoads := fun _ => .ok []

def memBadUtf8 : GuestMem := fun i =>
  if i = 0 then 16 else if i = 4 then 1 else if i = 16 then 0xFF else 0

/-- C4 counterexample: when the retrieved bytes fail to decode as UTF-8
(`bytes.decode("utf-8")` raises before the post-return line is reached),
`get_wasm_wat_mapping` propagates `UnicodeDecodeError` and the
post-return export `cabi_post_dwo-get-line-map` is never called —
refuting the claim that the post-return call happens on every outcome
including a failed parse of the retrieved bytes. -/
theorem c4_counterexample :
    (get_wasm_wat_mapping [] envStructZero memBadUtf8).1 = .error .unicodeDecodeError ∧
      callsNamed "cabi_post_dwo-get-line-map"
        (get_wasm_wat_mapping [] envStructZero memBadUtf8).2.2 = [] := by
  refine ⟨by decide, by decide⟩

/-- A guest environment whose allocator `cabi_realloc` returns the null
pointer 0 (and whose other exports succeed, `dwo-create` returning 5). -/
def envNullAlloc : BridgeEnv where
  callImpl := fun name _ m => if name = "cabi_realloc" then .ok (0, m) else .ok (5, m)
  jsonLoads := fun _ => .ok []

/-- C5 counterexample: when the guest allocator returns the null pointer
for the blob-sized allocation, `DWO.__enter__` does NOT fail with a
`GuestAllocationFailed` error: it returns the handle from `dwo-create`
normally, after copying the blob into guest memory at pointer 0 (the
write event and the resulting memory bytes show the copy happened). -/
theorem c5_counterexample :
    (DWO.enter [9, 8] envNullAlloc memZero).1 = .ok 5 ∧
      (DWO.enter [9, 8] envNullAlloc memZero).2.2 =
        [.call "cabi_realloc" [0, 0, 4, 2], .write 0 [9, 8], .call "dwo-create" [0, 2]] ∧
      (DWO.enter [9, 8] envNullAlloc memZero).2.1 0 = 9 ∧
      (DWO.enter [9, 8] envNullAlloc memZero).2.1 1 = 8 := by
  refine ⟨by decide, by decide, by decide, by decide⟩

/-- C5 amended: `DWO.__enter__` performs no null-pointer check on the
allocator's result.  Whenever `cabi_realloc` returns pointer 0, the
bridge proceeds to copy the blob into guest memory at address 0 and then
calls `dwo-create(0, len(blob))` — the trace of the enter phase is
exactly allocator call, write of the blob at 0, constructor call. -/
theorem c5_amended_no_null_check (env : BridgeEnv) (m : GuestMem) (bin : List Nat)
    (m1 : GuestMem)
    (h : env.callImpl "cabi_realloc" [0, 0, 4, bin.length] m = .ok (0, m1)) :
    (DWO.enter bin env m).2.2 =
      [.call "cabi_realloc" [0, 0, 4, bin.length], .write 0 bin,
        .call "dwo-create" [0, bin.length]] := by
  unfold DWO.enter
  rw [h]
  dsimp only
  split
  · rfl
  · rfl

/-- Witness for the amended C5 under `envNullAlloc`. -/
theorem c5_amended_no_null_check_witness :
    envNullAlloc.callImpl "cabi_realloc" [0, 0, 4, ([9, 8] : List Nat).length] memZero =
        .ok (0, memZero) ∧
      (DWO.enter [9, 8] envNullAlloc memZero).2.2 =
        [.call "cabi_realloc" [0, 0, 4, ([9, 8] : List Nat).length], .write 0 [9, 8],
          .call "dwo-create" [0, ([9, 8] : List Nat).length]] :=
  ⟨rfl, c5_amended_no_null_check envNullAlloc memZero [9, 8] memZero rfl⟩

/-! ## wasm_parser.py: get_code_section -/

/-- `CODE_SECTION_ID` from `scripts/helper/wasm_parser.py`. -/
def CODE_SECTION_ID : Nat := 10

/-- The `while pos < len(wasm)` loop of `get_code_section_impl`
(`scripts/helper/wasm_parser.py`): read the section id byte `wasm[pos]`
(the head of the remaining bytes), LEB128-decode the section size from
the ten-byte slice after it, and either decode and return the function
count (code section) or skip the payload.  Falling off the end is the
`assert False`; `u.decode` of an empty slice is the failing
`assert i is not None`. -/
def gcs_go (wasm : List Nat) (pos : Nat) : Except PyErr (Nat × Nat) :=
  match hdrop : wasm.drop pos with
  | [] => .error .assertionError
  | section_id :: _ =>
    match u.decode ((wasm.drop (pos + 1)).take MAX_LENGTH) with
    | none => .error .assertionError
    | some (length, leb128_length) =>
      if section_id = CODE_SECTION_ID then
        match u.decode ((wasm.drop (pos + 1 + leb128_length)).take MAX_LENGTH) with
        | none => .error .assertionError
        | some (function_count, leb2) =>
          .ok (pos + 1 + leb128_length + leb2, function_count)
      else gcs_go wasm (pos + 1 + leb128_length + length)
termination_by wasm.length - pos
decreasing_by
  have hpos : pos < wasm.length := by
    by_contra hge
    rw [List.drop_eq_nil_iff.2 (by omega)] at hdrop
    exact List.noConfusion hdrop
  omega

/-- `get_code_section_impl` from `scripts/helper/wasm_parser.py`: scan
section headers sequentially starting after the fixed 8-byte preamble. -/
def get_code_section_impl (wasm : List Nat) : Except PyErr (Nat × Nat) :=
  gcs_go wasm 8

/-- Standard unsigned LEB128 encoding, the spec-side model of the
`varuint32`/`varuint64` fields of the WebAssembly binary format that
`get_code_section_impl` scans (the repository only decodes; the encoder
is needed to state what a valid binary is). -/
def lebEncode (n : Nat) : List Nat :=
  if n < 128 then [n] else (n % 128 + 128) :: lebEncode (n / 128)
termination_by n
decreasing_by exact Nat.div_lt_self (by omega) (by norm_num)

/-- One section of a WebAssembly binary: a one-byte id and a payload. -/
structure WasmSection where
  id : Nat
  payload : List Nat
  deriving DecidableEq, Repr

/-- Byte encoding of a section: `(id: u8, size: varuint, payload)`. -/
def encodeSection (s : WasmSection) : List Nat :=
  s.id :: (lebEncode s.payload.length ++ s.payload)

/-- Byte encoding of a sequence of sections. -/
def encodeSections (ss : List WasmSection) : List Nat :=
  (ss.map encodeSection).flatten

/-- A WebAssembly binary that contains a code section: an 8-byte
preamble, some earlier sections, the code section (id
`CODE_SECTION_ID`, payload `codePayload`, which for a well-formed
module starts with the function-count varuint), and trailing bytes. -/
def encodeModule (preamble : List Nat) (pre : List WasmSection)
    (codePayload tail : List Nat) : List Nat :=
  preamble ++ encodeSections pre ++
    CODE_SECTION_ID :: (lebEncode codePayload.length ++ codePayload) ++ tail

theorem and_127_eq_mod (e : Nat) : e &&& 127 = e % 128 := by
  have h := Nat.and_pow_two_sub_one_eq_mod e 7
  norm_num at h
  exact h

theorem and_128_eq_zero_of_lt (n : Nat) (h : n < 128) : n &&& 128 = 0 := by
  have ha := Nat.and_two_pow n 7
  have ht : n.testBit 7 = false := by
    rw [Nat.testBit_to_div_mod, decide_eq_false_iff_not]
    norm_num
    omega
  rw [ht] at ha
  norm_num at ha
  exact ha

theorem and_128_ne_zero (n : Nat) (h1 : 128 ≤ n) (h2 : n < 256) : n &&& 128 ≠ 0 := by
  have ha := Nat.and_two_pow n 7
  have ht : n.testBit 7 = true := by
    rw [Nat.testBit_to_div_mod, decide_eq_true_eq]
    norm_num
    omega
  rw [ht] at ha
  norm_num at ha
  rw [ha]
  norm_num

theorem lebEncode_ne_nil (n : Nat) : lebEncode n ≠ [] := by
  rw [lebEncode]
  split <;> simp

theorem u.decodeGo_lebEncode (n : Nat) :
    ∀ (rest : List Nat) (i r : Nat),
      u.decodeGo (lebEncode n ++ rest) i r =
        (r + n * 2 ^ (7 * i), i + (lebEncode n).length) := by
  induction n using Nat.strong_induction_on with
  | _ n ih =>
    intro rest i r
    by_cases h : n < 128
    · rw [lebEncode, if_pos h]
      simp only [List.cons_append, List.nil_append, u.decodeGo]
      rw [if_pos (and_128_eq_zero_of_lt n h)]
      rw [Prod.mk.injEq]
      constructor
      · rw [and_127_eq_mod, Nat.mod_eq_of_lt h, Nat.shiftLeft_eq, mul_comm i 7]
      · simp
    · rw [lebEncode, if_neg h]
      simp only [List.cons_append, u.decodeGo]
      have hnz : (n % 128 + 128) &&& 0x80 ≠ 0 :=
        and_128_ne_zero _ (by omega) (by omega)
      rw [if_neg hnz]
      simp only [List.append_eq]
      rw [ih (n / 128) (Nat.div_lt_self (by omega) (by norm_num)) rest (i + 1)]
      rw [Prod.mk.injEq]
      constructor
      · rw [and_127_eq_mod, Nat.shiftLeft_eq, mul_comm i 7]
        have hmod : (n % 128 + 128) % 128 = n % 128 := by omega
        rw [hmod]
        have h7 : 7 * (i + 1) = 7 * i + 7 := by ring
        rw [h7, pow_add]
        have h128 : (2 : Nat) ^ 7 = 128 := by norm_num
        rw [h128]
        have hsplit : n = n % 128 + 128 * (n / 128) := (Nat.mod_add_div n 128).symm
        calc r + n % 128 * 2 ^ (7 * i) + n / 128 * (2 ^ (7 * i) * 128)
            = r + (n % 128 + 128 * (n / 128)) * 2 ^ (7 * i) := by ring
          _ = r + n * 2 ^ (7 * i) := by rw [← hsplit]
      · simp [List.length_cons]
        omega

theorem u.decode_lebEncode_take (n : Nat) (tail : List Nat)
    (hlen : (lebEncode n).length ≤ MAX_LENGTH) :
    u.decode ((lebEncode n ++ tail).take MAX_LENGTH) =
      some (n, (lebEncode n).length) := by
  rw [List.take_append_eq_append_take, List.take_of_length_le hlen]
  obtain ⟨b, bs, hb⟩ := List.exists_cons_of_ne_nil (lebEncode_ne_nil n)
  rw [hb, List.cons_append, u.decode, ← List.cons_append, ← hb,
    u.decodeGo_lebEncode n _ 0 0]
  simp

theorem lebEncode_length_le (k : Nat) :
    ∀ n, n < 2 ^ (7 * (k + 1)) → (lebEncode n).length ≤ k + 1 := by
  induction k with
  | zero =>
    intro n h
    norm_num at h
    rw [lebEncode, if_pos h]
    simp
  | succ k ih =>
    intro n h
    by_cases hn : n < 128
    · rw [lebEncode, if_pos hn]; simp
    · rw [lebEncode, if_neg hn]
      have hdiv : n / 128 < 2 ^ (7 * (k + 1)) := by
        apply Nat.div_lt_of_lt_mul
        calc n < 2 ^ (7 * (k + 2)) := h
          _ = 128 * 2 ^ (7 * (k + 1)) := by
              rw [show 7 * (k + 2) = 7 * (k + 1) + 7 by ring, pow_add]
              have h128 : (2 : Nat) ^ 7 = 128 := by norm_num
              rw [h128, mul_comm]
      have := ih (n / 128) hdiv
      simp [List.length_cons]
      omega

theorem lebEncode_length_le_ten (n : Nat) (h : n < 2 ^ 70) :
    (lebEncode n).length ≤ MAX_LENGTH := by
  have := lebEncode_length_le 9 n (by norm_num at h ⊢; omega)
  rw [MAX_LENGTH]
  omega

theorem drop_append_len {α : Type} (front l : List α) (k : Nat) :
    (front ++ l).drop (front.length + k) = l.drop k := by
  rw [← List.drop_drop k front.length (front ++ l), List.drop_left]

theorem encodeSections_nil : encodeSections [] = [] := rfl

theorem encodeSections_cons (s : WasmSection) (ss : List WasmSection) :
    encodeSections (s :: ss) = encodeSection s ++ encodeSections ss := by
  simp [encodeSections]

theorem gcs_go_found (front : List Nat) (plen count : Nat) (bodies tail : List Nat)
    (hl1 : (lebEncode plen).length ≤ MAX_LENGTH)
    (hl2 : (lebEncode count).length ≤ MAX_LENGTH) :
    gcs_go (front ++ CODE_SECTION_ID ::
        (lebEncode plen ++ (lebEncode count ++ (bodies ++ tail)))) front.length =
      .ok (front.length + 1 + (lebEncode plen).length + (lebEncode count).length,
        count) := by
  have hdl : (front ++ CODE_SECTION_ID ::
      (lebEncode plen ++ (lebEncode count ++ (bodies ++ tail)))).drop front.length =
      CODE_SECTION_ID :: (lebEncode plen ++ (lebEncode count ++ (bodies ++ tail))) :=
    List.drop_left front _
  have hd1 : (front ++ CODE_SECTION_ID ::
      (lebEncode plen ++ (lebEncode count ++ (bodies ++ tail)))).drop (front.length + 1) =
      lebEncode plen ++ (lebEncode count ++ (bodies ++ tail)) := by
    rw [drop_append_len]
    rfl
  have hd2 : (front ++ CODE_SECTION_ID ::
      (lebEncode plen ++ (lebEncode count ++ (bodies ++ tail)))).drop
        (front.length + 1 + (lebEncode plen).length) =
      lebEncode count ++ (bodies ++ tail) := by
    rw [Nat.add_assoc, drop_append_len, Nat.add_comm 1, List.drop_succ_cons,
      List.drop_left]
  rw [gcs_go]
  split
  · rename_i heq
    rw [hdl] at heq
    exact List.noConfusion heq
  · rename_i section_id rest' heq
    rw [hdl] at heq
    injection heq with h1 h2
    subst h1
    rw [hd1, u.decode_lebEncode_take plen _ hl1]
    dsimp only
    rw [if_pos rfl, hd2, u.decode_lebEncode_take count _ hl2]

theorem gcs_go_skip (front : List Nat) (s : WasmSection) (rest : List Nat)
    (hid : s.id ≠ CODE_SECTION_ID)
    (hlen : (lebEncode s.payload.length).length ≤ MAX_LENGTH) :
    gcs_go (front ++ (encodeSection s ++ rest)) front.length =
      gcs_go (front ++ (encodeSection s ++ rest)) (front ++ encodeSection s).length := by
  have hexp : front ++ (encodeSection s ++ rest) =
      front ++ s.id :: (lebEncode s.payload.length ++ (s.payload ++ rest)) := by
    simp [encodeSection, List.cons_append, List.append_assoc]
  have hdl : (front ++ (encodeSection s ++ rest)).drop front.length =
      s.id :: (lebEncode s.payload.length ++ (s.payload ++ rest)) := by
    rw [hexp, List.drop_left]
  have hd1 : (front ++ (encodeSection s ++ rest)).drop (front.length + 1) =
      lebEncode s.payload.length ++ (s.payload ++ rest) := by
    rw [hexp, drop_append_len]
    rfl
  have hidx : front.length + 1 + (lebEncode s.payload.length).length + s.payload.length =
      (front ++ encodeSection s).length := by
    simp [encodeSection]
    omega
  conv_lhs => rw [gcs_go]
  split
  · rename_i heq
    rw [hdl] at heq
    exact List.noConfusion heq
  · rename_i section_id rest' heq
    rw [hdl] at heq
    injection heq with h1 h2
    subst h1
    rw [hd1, u.decode_lebEncode_take s.payload.length _ hlen]
    dsimp only
    rw [if_neg hid, hidx]

theorem gcs_go_sections (pre : List WasmSection) :
    ∀ (front rest : List Nat),
      (∀ s ∈ pre, s.id ≠ CODE_SECTION_ID ∧ s.payload.length < 2 ^ 70) →
      gcs_go (front ++ (encodeSections pre ++ rest)) front.length =
        gcs_go (front ++ (encodeSections pre ++ rest))
          (front.length + (encodeSections pre).length) := by
  induction pre with
  | nil => intro front rest h; simp [encodeSections_nil]
  | cons s pre ih =>
    intro front rest h
    obtain ⟨hid, hpl⟩ := h s (List.mem_cons_self s pre)
    have hlen := lebEncode_length_le_ten _ hpl
    have hre : encodeSections (s :: pre) ++ rest =
        encodeSection s ++ (encodeSections pre ++ rest) := by
      rw [encodeSections_cons, List.append_assoc]
    rw [hre]
    rw [gcs_go_skip front s (encodeSections pre ++ rest) hid hlen]
    have hih := ih (front ++ encodeSection s) rest
      (fun t ht => h t (List.mem_cons_of_mem s ht))
    rw [List.append_assoc] at hih
    rw [hih]
    congr 1
    rw [List.length_append, encodeSections_cons, List.length_append]
    omega

/-- C9: for every valid WebAssembly binary that contains a code section
— modelled as an arbitrary 8-byte preamble, any earlier sections with
ids other than the code-section id (and sizes encodable within the
reader's ten-byte LEB128 window), then the code section whose payload is
the function-count varuint followed by the function bodies, then any
trailing bytes — `get_code_section_impl`, scanning section headers
sequentially from byte 8 and skipping non-matching sections by their
declared size, returns `(offset, functionCount)` such that the bytes up
to `offset` end exactly with the code section's function-count varuint
(so byte `offset - 1` is that varuint's last byte) and the bytes from
`offset` on are exactly the function bodies (beginning with the first
function's body-size varuint) followed by the trailing bytes. -/
theorem c9_locate_code_section (preamble : List Nat) (pre : List WasmSection)
    (count : Nat) (bodies tail : List Nat)
    (hpre8 : preamble.length = 8)
    (hsec : ∀ s ∈ pre, s.id ≠ CODE_SECTION_ID ∧ s.payload.length < 2 ^ 70)
    (hcount : count < 2 ^ 70)
    (hplen : (lebEncode count ++ bodies).length < 2 ^ 70) :
    get_code_section_impl (encodeModule preamble pre (lebEncode count ++ bodies) tail) =
        .ok (8 + (encodeSections pre).length + 1 +
          (lebEncode (lebEncode count ++ bodies).length).length +
          (lebEncode count).length, count) ∧
      (encodeModule preamble pre (lebEncode count ++ bodies) tail).take
          (8 + (encodeSections pre).length + 1 +
            (lebEncode (lebEncode count ++ bodies).length).length +
            (lebEncode count).length) =
        preamble ++ encodeSections pre ++ CODE_SECTION_ID ::
          (lebEncode (lebEncode count ++ bodies).length ++ lebEncode count) ∧
      (encodeModule preamble pre (lebEncode count ++ bodies) tail).drop
          (8 + (encodeSections pre).length + 1 +
            (lebEncode (lebEncode count ++ bodies).length).length +
            (lebEncode count).length) =
        bodies ++ tail := by
  have hl1 : (lebEncode (lebEncode count ++ bodies).length).length ≤ MAX_LENGTH :=
    lebEncode_length_le_ten _ hplen
  have hl2 : (lebEncode count).length ≤ MAX_LENGTH := lebEncode_length_le_ten _ hcount
  have hm1 : encodeModule preamble pre (lebEncode count ++ bodies) tail =
      preamble ++ (encodeSections pre ++
        (CODE_SECTION_ID :: (lebEncode (lebEncode count ++ bodies).length ++
          (lebEncode count ++ bodies)) ++ tail)) := by
    simp [encodeModule, List.append_assoc]
  have hm2 : encodeModule preamble pre (lebEncode count ++ bodies) tail =
      (preamble ++ encodeSections pre) ++ CODE_SECTION_ID ::
        (lebEncode (lebEncode count ++ bodies).length ++
          (lebEncode count ++ (bodies ++ tail))) := by
    simp [encodeModule, List.append_assoc, List.cons_append]
  have hsplit : encodeModule preamble pre (lebEncode count ++ bodies) tail =
      (preamble ++ encodeSections pre ++ CODE_SECTION_ID ::
        (lebEncode (lebEncode count ++ bodies).length ++ lebEncode count)) ++
        (bodies ++ tail) := by
    simp [encodeModule, List.append_assoc, List.cons_append]
  have hofflen : 8 + (encodeSections pre).length + 1 +
      (lebEncode (lebEncode count ++ bodies).length).length + (lebEncode count).length =
      (preamble ++ encodeSections pre ++ CODE_SECTION_ID ::
        (lebEncode (lebEncode count ++ bodies).length ++ lebEncode count)).length := by
    simp [List.length_append, List.length_cons, hpre8]
    omega
  have hsecs := gcs_go_sections pre preamble
    (CODE_SECTION_ID :: (lebEncode (lebEncode count ++ bodies).length ++
      (lebEncode count ++ bodies)) ++ tail) hsec
  have hfound := gcs_go_found (preamble ++ encodeSections pre)
    (lebEncode count ++ bodies).length count bodies tail hl1 hl2
  have e1 : gcs_go (encodeModule preamble pre (lebEncode count ++ bodies) tail) 8 =
      gcs_go (encodeModule preamble pre (lebEncode count ++ bodies) tail)
        (8 + (encodeSections pre).length) := by
    conv_lhs => rw [hm1, show (8 : Nat) = preamble.length from hpre8.symm]
    conv_rhs => rw [hm1, show (8 : Nat) = preamble.length from hpre8.symm]
    exact hsecs
  have e2 : gcs_go (encodeModule preamble pre (lebEncode count ++ bodies) tail)
      (8 + (encodeSections pre).length) =
      .ok (8 + (encodeSections pre).length + 1 +
        (lebEncode (lebEncode count ++ bodies).length).length +
        (lebEncode count).length, count) := by
    have hlen2 : 8 + (encodeSections pre).length =
        (preamble ++ encodeSections pre).length := by
      rw [List.length_append, hpre8]
    conv_lhs => rw [hm2, hlen2]
    conv_rhs => rw [hlen2]
    exact hfound
  refine ⟨e1.trans e2, ?_, ?_⟩
  · rw [hsplit, hofflen, List.take_left]
  · rw [hsplit, hofflen, List.drop_left]

/-- Witness for C9 on a concrete minimal module: preamble
`\x00asm\x01\x00\x00\x00`, one type-like section `(id 1, payload [0])`,
a code section with one function whose body is `[0, 0x0B]` (body size
2), and no trailing bytes. -/
theorem c9_locate_code_section_witness :
    ([0, 97, 115, 109, 1, 0, 0, 0] : List Nat).length = 8 ∧
      get_code_section_impl
          (encodeModule [0, 97, 115, 109, 1, 0, 0, 0] [⟨1, [0]⟩]
            (lebEncode 1 ++ [2, 0, 11]) []) =
        .ok (8 + (encodeSections [⟨1, [0]⟩]).length + 1 +
          (lebEncode (lebEncode 1 ++ [2, 0, 11]).length).length +
          (lebEncode 1).length, 1) := by
  have hleb1 : lebEncode 1 = [1] := by
    rw [lebEncode, if_pos (by norm_num)]
  refine ⟨by decide, ?_⟩
  refine (c9_locate_code_section [0, 97, 115, 109, 1, 0, 0, 0] [⟨1, [0]⟩] 1 [2, 0, 11] []
    (by decide) ?_ (by norm_num) ?_).1
  · intro s hs
    rw [List.mem_singleton] at hs
    subst hs
    refine ⟨by decide, by norm_num⟩
  · rw [hleb1]
    norm_num

end Kvm
